import Mathlib

/-!
Verification of the resilient operation-application pipeline of the
Microsoft Graph workbook service: retry policy, per-user sliding-window
rate limiter, session cache, operation executor, circuit-breaker wiring
and the HTTP batch orchestrator.  Each definition is a shallow embedding
of one source function; remote I/O (the Graph API, MSAL token exchange)
is abstracted by explicit outcome oracles passed as arguments, and time
is an explicit parameter in milliseconds since the epoch.
-/

namespace GraphMCP

/-! ## Retry policy (graph client, `graphRetry`)

The Graph client error object carries an optional numeric `statusCode`
and an optional pre-parsed `retry-after` header (seconds).  `graphRetry`
loops over up to `maxRetries` attempts; the outcome of attempt `i` is
supplied by the oracle `attempts i`, and the `Math.random() * 1000`
jitter drawn before the sleep after attempt `i` is supplied by
`jitter i`. -/

structure GraphError where
  statusCode : Option Nat
  retryAfter : Option Nat
  message : String
deriving DecidableEq

/-- The non-retry test of `graphRetry`:
`err.statusCode && err.statusCode >= 400 && err.statusCode < 500 && err.statusCode !== 429`.
A missing (or zero, hence falsy) status code makes the conjunction false. -/
def nonRetryable (e : GraphError) : Bool :=
  match e.statusCode with
  | some c => decide (400 ≤ c ∧ c < 500 ∧ c ≠ 429)
  | none => false

inductive AttemptOutcome (α : Type) where
  | success (v : α)
  | failure (e : GraphError)

/-- The sleep computed after a failed attempt: `baseDelayMs * Math.pow(2, attempt)`,
overridden by `parseInt(retryAfter, 10) * 1000` when the error carries a
`retry-after` header, plus the jitter drawn for this attempt. -/
def retryDelay (jitter : Nat → Nat) (baseDelayMs : Nat) (e : GraphError) (attempt : Nat) : Nat :=
  (match e.retryAfter with
   | some s => s * 1000
   | none => baseDelayMs * 2 ^ attempt) + jitter attempt

/-- The `for` loop of `graphRetry`, with the remaining iteration count as
fuel.  Returns the outcome (`Except.error last` models `throw lastError`,
where `none` is the `undefined` of a zero-iteration loop) together with
the list of sleeps performed, in order.  Note the loop body sleeps after
every retryable failure, including the one in the final iteration. -/
def graphRetryGo (attempts : Nat → AttemptOutcome α) (jitter : Nat → Nat)
    (baseDelayMs : Nat) : Nat → Nat → Option GraphError → Except (Option GraphError) α × List Nat
  | 0, _, last => (.error last, [])
  | fuel + 1, i, _ =>
    match attempts i with
    | .success v => (.ok v, [])
    | .failure e =>
      if nonRetryable e then (.error (some e), [])
      else
        let rest := graphRetryGo attempts jitter baseDelayMs fuel (i + 1) (some e)
        (rest.1, retryDelay jitter baseDelayMs e i :: rest.2)

/-- `graphRetry(fn, maxRetries = 3, baseDelayMs = 1000)`. -/
def graphRetry (attempts : Nat → AttemptOutcome α) (jitter : Nat → Nat)
    (maxRetries baseDelayMs : Nat) : Except (Option GraphError) α × List Nat :=
  graphRetryGo attempts jitter baseDelayMs maxRetries 0 none

/-- The sleeps performed while consuming the retryable failures `es`
starting at attempt index `i`. -/
def delaysFor (jitter : Nat → Nat) (baseDelayMs : Nat) : List GraphError → Nat → List Nat
  | [], _ => []
  | e :: es, i => retryDelay jitter baseDelayMs e i :: delaysFor jitter baseDelayMs es (i + 1)

/-- The `lastError` variable after consuming the failures `es`. -/
def lastOf : List GraphError → Option GraphError → Option GraphError
  | [], last => last
  | e :: es, _ => lastOf es (some e)

theorem lastOf_append_singleton (es : List GraphError) (e : GraphError) :
    ∀ last, lastOf (es ++ [e]) last = some e := by
  induction es with
  | nil => intro last; rfl
  | cons a as ih => intro last; simpa [lastOf] using ih (some a)

theorem delaysFor_length (jitter : Nat → Nat) (b : Nat) (es : List GraphError) :
    ∀ i, (delaysFor jitter b es i).length = es.length := by
  induction es with
  | nil => intro i; rfl
  | cons a as ih => intro i; simp [delaysFor, ih]

theorem delaysFor_get? (jitter : Nat → Nat) (b : Nat) (es : List GraphError) :
    ∀ i j, (delaysFor jitter b es i).get? j = (es.get? j).map (fun e => retryDelay jitter b e (i + j)) := by
  induction es with
  | nil => intro i j; cases j <;> rfl
  | cons a as ih =>
    intro i j
    cases j with
    | zero => rfl
    | succ j =>
      simpa [delaysFor, Nat.add_comm, Nat.add_left_comm, Nat.add_assoc] using ih (i + 1) j

/-- Running the loop through a block of retryable failures `es`: it
performs the corresponding sleeps and continues with the remaining fuel. -/
theorem graphRetryGo_retryable_block (attempts : Nat → AttemptOutcome α) (jitter : Nat → Nat)
    (b : Nat) (es : List GraphError) :
    ∀ (fuel i : Nat) (last : Option GraphError),
      (∀ j e, es.get? j = some e → attempts (i + j) = .failure e ∧ nonRetryable e = false) →
      graphRetryGo attempts jitter b (es.length + fuel) i last =
        ((graphRetryGo attempts jitter b fuel (i + es.length) (lastOf es last)).1,
         delaysFor jitter b es i ++ (graphRetryGo attempts jitter b fuel (i + es.length) (lastOf es last)).2) := by
  induction es with
  | nil => intro fuel i last _; simp [delaysFor, lastOf]
  | cons e es ih =>
    intro fuel i last h
    have h0 := h 0 e rfl
    rw [Nat.add_zero] at h0
    have hrec := ih fuel (i + 1) (some e) (by
      intro j x hx
      have := h (j + 1) x (by simpa using hx)
      simpa [Nat.add_comm, Nat.add_left_comm, Nat.add_assoc] using this)
    simp only [List.length_cons]
    have hstep : graphRetryGo attempts jitter b (es.length + 1 + fuel) i last =
        ((graphRetryGo attempts jitter b (es.length + fuel) (i + 1) (some e)).1,
         retryDelay jitter b e i :: (graphRetryGo attempts jitter b (es.length + fuel) (i + 1) (some e)).2) := by
      have harr : es.length + 1 + fuel = (es.length + fuel) + 1 := by omega
      rw [harr]
      simp [graphRetryGo, h0.1, h0.2]
    rw [hstep, hrec]
    simp [delaysFor, lastOf, Nat.add_comm, Nat.add_left_comm, Nat.add_assoc]

theorem delaysFor_append_singleton (jitter : Nat → Nat) (b : Nat) (es : List GraphError)
    (e : GraphError) :
    ∀ i, delaysFor jitter b (es ++ [e]) i =
      delaysFor jitter b es i ++ [retryDelay jitter b e (i + es.length)] := by
  induction es with
  | nil => intro i; simp [delaysFor]
  | cons a as ih =>
    intro i
    simp [delaysFor, ih (i + 1), Nat.add_comm, Nat.add_left_comm, Nat.add_assoc]

/-- A run in which every attempt fails retryably: all `N` sleeps are
performed and the last error is raised. -/
theorem graphRetry_all_retryable (α : Type) (attempts : Nat → AttemptOutcome α)
    (jitter : Nat → Nat) (N b : Nat) (es : List GraphError)
    (hes : ∀ j e, es.get? j = some e → attempts j = .failure e ∧ nonRetryable e = false)
    (hlen : es.length = N) :
    graphRetry attempts jitter N b = (.error (lastOf es none), delaysFor jitter b es 0) := by
  have h0 : N = es.length + 0 := by omega
  unfold graphRetry
  rw [h0, graphRetryGo_retryable_block attempts jitter b es 0 0 none
    (by intro j x hx; simpa using hes j x hx)]
  simp [graphRetryGo]

/-- **C6**: for every call wrapped by the retry policy: a failure with a 4xx
status other than 429 is raised immediately with no further attempt; 429
and all other errors (no status / 5xx) are retried up to the attempt
budget; the sleep before a retry equals the server retry-after value in
seconds times 1000 when present and `base * 2 ^ attempt` otherwise, plus
the jitter for that attempt (which lies in `[0, 1000)`); when every
attempt fails retryably, the last error is raised.  `es` is the block of
retryable failures produced by the leading attempts. -/
theorem graphRetry_policy (α : Type) (attempts : Nat → AttemptOutcome α) (jitter : Nat → Nat)
    (N b : Nat) (es : List GraphError)
    (hes : ∀ j e, es.get? j = some e → attempts j = .failure e ∧ nonRetryable e = false)
    (hjit : ∀ j, jitter j < 1000) :
    (∀ e, nonRetryable e = true ↔ ∃ c, e.statusCode = some c ∧ 400 ≤ c ∧ c < 500 ∧ c ≠ 429) ∧
    (∀ e, es.length < N → attempts es.length = .failure e → nonRetryable e = true →
      graphRetry attempts jitter N b = (.error (some e), delaysFor jitter b es 0)) ∧
    (∀ v, es.length < N → attempts es.length = .success v →
      graphRetry attempts jitter N b = (.ok v, delaysFor jitter b es 0)) ∧
    (∀ es' e, es = es' ++ [e] → es.length = N →
      graphRetry attempts jitter N b = (.error (some e), delaysFor jitter b es 0)) ∧
    (∀ j e, es.get? j = some e →
      (delaysFor jitter b es 0).get? j =
        some ((match e.retryAfter with | some s => s * 1000 | none => b * 2 ^ j) + jitter j) ∧
      jitter j < 1000) := by
  refine ⟨?_, ?_, ?_, ?_, ?_⟩
  · intro e
    cases hsc : e.statusCode with
    | none => simp [nonRetryable, hsc]
    | some c => simp [nonRetryable, hsc, decide_eq_true_iff, and_assoc]
  · intro e hlt hatt hnr
    obtain ⟨f, hf⟩ : ∃ f, N = es.length + (f + 1) := ⟨N - es.length - 1, by omega⟩
    subst hf
    unfold graphRetry
    rw [Nat.add_comm es.length (f + 1), Nat.add_comm (f + 1) es.length]
    rw [graphRetryGo_retryable_block attempts jitter b es (f + 1) 0 none
      (by intro j x hx; simpa using hes j x hx)]
    rw [Nat.zero_add]
    simp [graphRetryGo, hatt, hnr]
  · intro v hlt hatt
    obtain ⟨f, hf⟩ : ∃ f, N = es.length + (f + 1) := ⟨N - es.length - 1, by omega⟩
    subst hf
    unfold graphRetry
    rw [graphRetryGo_retryable_block attempts jitter b es (f + 1) 0 none
      (by intro j x hx; simpa using hes j x hx)]
    rw [Nat.zero_add]
    simp [graphRetryGo, hatt]
  · intro es' e hsplit hlen
    rw [graphRetry_all_retryable α attempts jitter N b es hes hlen, hsplit,
      lastOf_append_singleton]
  · intro j e hj
    refine ⟨?_, hjit j⟩
    rw [delaysFor_get? jitter b es 0 j, hj]
    simp [retryDelay]

/-- Concrete retry run: one retryable 503 failure, then success. -/
def c6err : GraphError := { statusCode := some 503, retryAfter := none, message := "transient" }

def c6attempts : Nat → AttemptOutcome Nat := fun i => if i = 0 then .failure c6err else .success 7

def c6jitter : Nat → Nat := fun _ => 17

theorem graphRetry_policy_witness :
    graphRetry c6attempts c6jitter 3 1000 = (.ok 7, [1017]) := by
  have h := graphRetry_policy Nat c6attempts c6jitter 3 1000 [c6err]
    (by
      intro j e hj
      cases j with
      | zero =>
        simp only [List.get?] at hj
        cases hj
        exact ⟨rfl, rfl⟩
      | succ n => simp [List.get?] at hj)
    (by intro j; show (17 : Nat) < 1000; decide)
  have h2 := h.2.2.1 7 (by decide) rfl
  simpa [delaysFor, retryDelay, c6jitter, c6err] using h2

/-- **C10 (amended)**: when every attempt fails retryably, `graphRetry`
sleeps the computed delay after every failed attempt *including the
final one* and only then raises the last error; the extra delay after
the final attempt is `retryAfter * 1000 + jitter` when the final error
carries a retry-after value and `base * 2 ^ (N-1) + jitter` (hence at
least `base * 2 ^ (N-1)`) when it does not. -/
theorem graphRetry_sleeps_after_final (α : Type) (attempts : Nat → AttemptOutcome α)
    (jitter : Nat → Nat) (N b : Nat) (es es' : List GraphError) (e : GraphError)
    (hsplit : es = es' ++ [e]) (hlen : es.length = N)
    (hes : ∀ j x, es.get? j = some x → attempts j = .failure x ∧ nonRetryable x = false) :
    (graphRetry attempts jitter N b).1 = .error (some e) ∧
    (graphRetry attempts jitter N b).2.length = N ∧
    (graphRetry attempts jitter N b).2.getLast? =
      some ((match e.retryAfter with | some s => s * 1000 | none => b * 2 ^ (N - 1)) + jitter (N - 1)) ∧
    (e.retryAfter = none →
      ∀ d, (graphRetry attempts jitter N b).2.getLast? = some d → b * 2 ^ (N - 1) ≤ d) := by
  have hrun := graphRetry_all_retryable α attempts jitter N b es hes hlen
  have hlast : lastOf es none = some e := by rw [hsplit]; exact lastOf_append_singleton es' e none
  have hlen' : es'.length = N - 1 := by
    have := hlen
    rw [hsplit] at this
    simp at this
    omega
  have hdel : delaysFor jitter b es 0 =
      delaysFor jitter b es' 0 ++ [retryDelay jitter b e es'.length] := by
    rw [hsplit, delaysFor_append_singleton]
    simp
  refine ⟨by rw [hrun, hlast], ?_, ?_, ?_⟩
  · rw [hrun]
    simpa using (delaysFor_length jitter b es 0).trans hlen
  · rw [hrun]
    simp only [hdel, List.getLast?_concat, hlen']
    rfl
  · intro hnone d hd
    rw [hrun, hdel] at hd
    simp only [List.getLast?_concat, Option.some.injEq] at hd
    rw [← hd]
    simp [retryDelay, hnone, hlen']

/-- Concrete all-failures retry run without retry-after: two 503s. -/
def c10werr : GraphError := { statusCode := some 503, retryAfter := none, message := "down" }

def c10wattempts : Nat → AttemptOutcome Nat := fun _ => .failure c10werr

def c10wjitter : Nat → Nat := fun _ => 5

theorem graphRetry_sleeps_after_final_witness :
    (graphRetry c10wattempts c10wjitter 2 1000).1 = .error (some c10werr) ∧
    (graphRetry c10wattempts c10wjitter 2 1000).2.length = 2 ∧
    (graphRetry c10wattempts c10wjitter 2 1000).2.getLast? =
      some ((match c10werr.retryAfter with
             | some s => s * 1000
             | none => 1000 * 2 ^ (2 - 1)) + c10wjitter (2 - 1)) ∧
    (c10werr.retryAfter = none →
      ∀ d, (graphRetry c10wattempts c10wjitter 2 1000).2.getLast? = some d →
        1000 * 2 ^ (2 - 1) ≤ d) :=
  graphRetry_sleeps_after_final Nat c10wattempts c10wjitter 2 1000
    [c10werr, c10werr] [c10werr] c10werr rfl rfl
    (by
      intro j x hj
      cases j with
      | zero =>
        simp only [List.get?] at hj
        cases hj
        exact ⟨rfl, rfl⟩
      | succ n =>
        cases n with
        | zero =>
          simp only [List.get?] at hj
          cases hj
          exact ⟨rfl, rfl⟩
        | succ m => simp [List.get?] at hj)

/-- Concrete all-failures retry run whose final error carries
`retry-after: 1`: every sleep is `1 * 1000 + 0 = 1000` ms. -/
def c10cerr : GraphError := { statusCode := some 429, retryAfter := some 1, message := "throttled" }

def c10cattempts : Nat → AttemptOutcome Nat := fun _ => .failure c10cerr

def c10cjitter : Nat → Nat := fun _ => 0

/-- **C10 counterexample**: with `maxRetries = 3`, `baseDelayMs = 1000`
and every attempt failing with a 429 carrying `retry-after: 1`, the
sleep observed after the final attempt is 1000 ms, which is *less* than
`base * 2 ^ (N-1) = 4000` ms — refuting the claim that the caller always
observes an extra delay of at least `base * 2 ^ (N-1)` ms after the last
attempt. -/
theorem graphRetry_last_delay_counterexample :
    (graphRetry c10cattempts c10cjitter 3 1000).1 = .error (some c10cerr) ∧
    ¬ (∀ d, (graphRetry c10cattempts c10cjitter 3 1000).2.getLast? = some d →
        1000 * 2 ^ (3 - 1) ≤ d) := by
  constructor
  · rfl
  · intro h
    exact absurd (h 1000 rfl) (by decide)

/-! ## Rate limiter (`checkRateLimit`, Redis cache module)

One user's rate window: the Redis sorted set `rate:{userId}` holds one
member per admitted request, scored by its `Date.now()` timestamp, and
the key carries an expiry refreshed (via `EXPIRE key windowSeconds`)
on every admission.  `zremrangebyscore(key, 0, windowStart)` removes the
members whose score lies in `[0, now - windowSeconds*1000]`;
`zrange(key, 0, 0)` returns the member with the lowest score. -/

structure RateState where
  entries : List Nat
  expireAt : Option Nat
deriving DecidableEq

structure RateLimitResult where
  allowed : Bool
  remaining : Nat
  resetAt : Nat
deriving DecidableEq

/-- Redis key expiry: once `expireAt` has passed, the key (the whole
sorted set and its TTL) is gone. -/
def rateKeyLive (st : RateState) (now : Nat) : RateState :=
  match st.expireAt with
  | some e => if e ≤ now then ⟨[], none⟩ else st
  | none => st

/-- A recorded timestamp `τ` survives `zremrangebyscore(key, 0, now - wS*1000)`
iff its score is strictly above the cut-off. -/
def inWindow (wS now τ : Nat) : Bool := decide ((now : Int) - wS * 1000 < (τ : Int))

/-- `checkRateLimit(userId, maxRequests = 100, windowSeconds = 60)` for
one user, acting on that user's window state at time `now` (ms). -/
def checkRateLimit (st : RateState) (now maxRequests windowSeconds : Nat) :
    RateLimitResult × RateState :=
  let live := rateKeyLive st now
  let survivors := live.entries.filter (inWindow windowSeconds now)
  let count := survivors.length
  if maxRequests ≤ count then
    let resetAt := match survivors.min? with
      | some o => o + windowSeconds * 1000
      | none => now + windowSeconds * 1000
    ({ allowed := false, remaining := 0, resetAt := resetAt },
     { entries := survivors, expireAt := live.expireAt })
  else
    ({ allowed := true, remaining := maxRequests - count - 1,
       resetAt := now + windowSeconds * 1000 },
     { entries := survivors ++ [now], expireAt := some (now + windowSeconds * 1000) })

def rlInit : RateState := ⟨[], none⟩

/-- Serial execution of checks for one user at the given times. -/
def runChecks (maxR wS : Nat) (st : RateState) : List Nat → List Bool × RateState
  | [] => ([], st)
  | n :: ns =>
    let step := checkRateLimit st n maxR wS
    let rest := runChecks maxR wS step.2 ns
    (step.1.allowed :: rest.1, rest.2)

/-- The times of the admitted checks of a serial execution. -/
def admittedTimes (maxR wS : Nat) (st : RateState) : List Nat → List Nat
  | [] => []
  | n :: ns =>
    let step := checkRateLimit st n maxR wS
    if step.1.allowed then n :: admittedTimes maxR wS step.2 ns
    else admittedTimes maxR wS step.2 ns

/-- Invariant of one user's window state after a history whose admitted
check times are `adm` and whose last check happened at time `n`. -/
def GoodState (maxR wS : Nat) (st : RateState) (n : Nat) (adm : List Nat) : Prop :=
  st.entries = adm.filter (inWindow wS n) ∧
  st.entries.length ≤ maxR ∧
  (∀ τ ∈ adm, τ ≤ n) ∧
  (match st.expireAt with
   | some e => ∀ τ ∈ st.entries, τ + wS * 1000 ≤ e
   | none => st.entries = [])

theorem inWindow_mono (wS n n' τ : Nat) (h : n ≤ n') (hw : inWindow wS n' τ = true) :
    inWindow wS n τ = true := by
  simp only [inWindow, decide_eq_true_iff] at hw ⊢
  have : (n : Int) ≤ (n' : Int) := by exact_mod_cast h
  omega

theorem inWindow_self (wS n : Nat) (hw : 0 < wS) : inWindow wS n n = true := by
  simp only [inWindow, decide_eq_true_iff]
  have : (0 : Int) < (wS : Int) * 1000 := by positivity
  omega

theorem filter_inWindow_mono (wS n n' : Nat) (h : n ≤ n') (l : List Nat) :
    (l.filter (inWindow wS n)).filter (inWindow wS n') = l.filter (inWindow wS n') := by
  rw [List.filter_filter]
  apply List.filter_congr
  intro τ _
  by_cases hτ : inWindow wS n' τ = true
  · simp [hτ, inWindow_mono wS n n' τ h hτ]
  · simp only [Bool.not_eq_true] at hτ
    simp [hτ]

/-- One `checkRateLimit` step preserves the window invariant, with the
check time appended to the admitted history exactly when it is admitted. -/
theorem GoodState_step (maxR wS : Nat) (hw : 0 < wS) (st : RateState) (n n' : Nat)
    (hnn : n ≤ n') (adm : List Nat) (hst : GoodState maxR wS st n adm) :
    GoodState maxR wS (checkRateLimit st n' maxR wS).2 n'
      (if (checkRateLimit st n' maxR wS).1.allowed then adm ++ [n'] else adm) := by
  obtain ⟨hent, hlen, hbound, hexp⟩ := hst
  have hboundn' : ∀ τ ∈ adm, τ ≤ n' := fun τ hτ => le_trans (hbound τ hτ) hnn
  by_cases hdead : ∃ e, st.expireAt = some e ∧ e ≤ n'
  · -- the Redis key has expired: the sorted set is gone
    obtain ⟨e, hee, hen⟩ := hdead
    have hfilt : adm.filter (inWindow wS n') = [] := by
      rw [List.filter_eq_nil_iff]
      intro τ hτ hwin
      have hmem : τ ∈ st.entries := by
        rw [hent, List.mem_filter]
        exact ⟨hτ, inWindow_mono wS n n' τ hnn hwin⟩
      have hle := hexp
      rw [hee] at hle
      have h1 : τ + wS * 1000 ≤ e := hle τ hmem
      simp only [inWindow, decide_eq_true_iff] at hwin
      have : (τ : Int) + (wS : Int) * 1000 ≤ (n' : Int) := by
        have : τ + wS * 1000 ≤ n' := le_trans h1 hen
        exact_mod_cast this
      omega
    have hlive : rateKeyLive st n' = ⟨[], none⟩ := by
      simp [rateKeyLive, hee, hen]
    simp only [checkRateLimit, hlive, List.filter_nil, List.length_nil]
    by_cases hm : maxR ≤ 0
    · simp only [hm, if_pos]
      refine ⟨by simpa using hfilt.symm, by simp, hboundn', by simp⟩
    · simp only [if_neg hm]
      refine ⟨?_, by simpa using Nat.lt_of_not_le hm, ?_, ?_⟩
      · simp [List.filter_append, hfilt, inWindow_self wS n' hw]
      · intro τ hτ
        rcases List.mem_append.mp hτ with h | h
        · exact hboundn' τ h
        · simp only [List.mem_singleton] at h; omega
      · intro τ hτ
        simp only [List.nil_append, List.mem_singleton] at hτ
        omega
  · -- the key is still live
    have hlive : rateKeyLive st n' = st := by
      cases hse : st.expireAt with
      | none => simp [rateKeyLive, hse]
      | some e =>
        have : ¬ e ≤ n' := fun hc => hdead ⟨e, hse, hc⟩
        simp [rateKeyLive, hse, this]
    have hsurv : st.entries.filter (inWindow wS n') = adm.filter (inWindow wS n') := by
      rw [hent, filter_inWindow_mono wS n n' hnn]
    simp only [checkRateLimit, hlive, hsurv]
    by_cases hm : maxR ≤ (adm.filter (inWindow wS n')).length
    · -- deny: nothing recorded, expiry untouched
      simp only [hm, if_pos]
      refine ⟨rfl, ?_, hboundn', ?_⟩
      · calc (adm.filter (inWindow wS n')).length
            = (st.entries.filter (inWindow wS n')).length := by rw [hsurv]
          _ ≤ st.entries.length := List.length_filter_le _ _
          _ ≤ maxR := hlen
      · cases hse : st.expireAt with
        | none =>
          have : st.entries = [] := by
            have h := hexp; rw [hse] at h; exact h
          simp [← hsurv, this]
        | some e =>
          have h := hexp; rw [hse] at h
          intro τ hτ
          rw [← hsurv] at hτ
          exact h τ (List.mem_of_mem_filter hτ)
    · -- admit: the current timestamp is recorded, TTL refreshed
      simp only [if_neg hm]
      refine ⟨?_, ?_, ?_, ?_⟩
      · simp [List.filter_append, inWindow_self wS n' hw]
      · simpa using Nat.lt_of_not_le hm
      · intro τ hτ
        rcases List.mem_append.mp hτ with h | h
        · exact hboundn' τ h
        · simp only [List.mem_singleton] at h; omega
      · intro τ hτ
        rcases List.mem_append.mp hτ with h | h
        · have : τ ∈ adm := List.mem_of_mem_filter h
          have := hboundn' τ this
          omega
        · simp only [List.mem_singleton] at h
          omega

theorem GoodState_init (maxR wS n : Nat) : GoodState maxR wS rlInit n [] := by
  refine ⟨by simp [rlInit], by simp [rlInit], by simp, by simp [rlInit]⟩

theorem runChecks_invariant (maxR wS : Nat) (hw : 0 < wS) :
    ∀ (ts : List Nat) (st : RateState) (n0 : Nat) (adm : List Nat),
      List.Chain' (fun a b => a ≤ b) (n0 :: ts) →
      GoodState maxR wS st n0 adm →
      GoodState maxR wS (runChecks maxR wS st ts).2 (ts.getLastD n0)
        (adm ++ admittedTimes maxR wS st ts) := by
  intro ts
  induction ts with
  | nil =>
    intro st n0 adm _ h
    simpa [runChecks, admittedTimes] using h
  | cons n ns ih =>
    intro st n0 adm hchain h
    have hc := List.chain'_cons.mp hchain
    have hstep := GoodState_step maxR wS hw st n0 n hc.1 adm h
    by_cases ha : (checkRateLimit st n maxR wS).1.allowed = true
    · rw [if_pos ha] at hstep
      have hrec := ih (checkRateLimit st n maxR wS).2 n (adm ++ [n]) hc.2 hstep
      simp only [runChecks, admittedTimes, List.getLastD_cons, ha, if_true]
      simpa [List.append_assoc] using hrec
    · rw [if_neg ha] at hstep
      have hrec := ih (checkRateLimit st n maxR wS).2 n adm hc.2 hstep
      simp only [runChecks, admittedTimes, List.getLastD_cons, ha, if_false]
      exact hrec

/-- In any serial execution from an empty window, the admitted requests
lying inside the window ending at the last check time never exceed the
quota. -/
theorem rl_no_overadmission (maxR wS : Nat) (hw : 0 < wS) (ts : List Nat)
    (hmono : List.Chain' (fun a b => a ≤ b) ts) :
    ((admittedTimes maxR wS rlInit ts).filter (inWindow wS (ts.getLastD 0))).length ≤ maxR := by
  have hchain : List.Chain' (fun a b => a ≤ b) (0 :: ts) := by
    cases ts with
    | nil => simp
    | cons a l => exact List.chain'_cons.mpr ⟨Nat.zero_le a, hmono⟩
  have h := runChecks_invariant maxR wS hw ts rlInit 0 [] hchain (GoodState_init maxR wS 0)
  obtain ⟨hent, hlen, -, -⟩ := h
  rw [List.nil_append] at hent
  rw [← hent]
  exact hlen

theorem checkRateLimit_deny_eq (st : RateState) (now maxR wS : Nat)
    (hd : maxR ≤ ((rateKeyLive st now).entries.filter (inWindow wS now)).length) :
    checkRateLimit st now maxR wS =
      ({ allowed := false, remaining := 0,
         resetAt := match ((rateKeyLive st now).entries.filter (inWindow wS now)).min? with
                    | some o => o + wS * 1000
                    | none => now + wS * 1000 },
       { entries := (rateKeyLive st now).entries.filter (inWindow wS now),
         expireAt := (rateKeyLive st now).expireAt }) := by
  simp only [checkRateLimit, if_pos hd]

theorem checkRateLimit_admit_eq (st : RateState) (now maxR wS : Nat)
    (hd : ((rateKeyLive st now).entries.filter (inWindow wS now)).length < maxR) :
    checkRateLimit st now maxR wS =
      ({ allowed := true,
         remaining := maxR - ((rateKeyLive st now).entries.filter (inWindow wS now)).length - 1,
         resetAt := now + wS * 1000 },
       { entries := (rateKeyLive st now).entries.filter (inWindow wS now) ++ [now],
         expireAt := some (now + wS * 1000) }) := by
  simp only [checkRateLimit, if_neg (Nat.not_le.mpr hd)]

theorem rateKeyLive_cases (st : RateState) (now : Nat) :
    rateKeyLive st now = st ∨ rateKeyLive st now = ⟨[], none⟩ := by
  unfold rateKeyLive
  cases hse : st.expireAt with
  | none => exact Or.inl rfl
  | some e =>
    by_cases he : e ≤ now
    · exact Or.inr (by simp [he])
    · exact Or.inl (by simp [he])

/-- A denial (with a positive quota) can only come from the deny branch
acting on a still-live key. -/
theorem checkRateLimit_denied_shape (st : RateState) (now maxR wS : Nat) (hR : 0 < maxR)
    (hdeny : (checkRateLimit st now maxR wS).1.allowed = false) :
    rateKeyLive st now = st ∧
    maxR ≤ (st.entries.filter (inWindow wS now)).length ∧
    checkRateLimit st now maxR wS =
      ({ allowed := false, remaining := 0,
         resetAt := match (st.entries.filter (inWindow wS now)).min? with
                    | some o => o + wS * 1000
                    | none => now + wS * 1000 },
       { entries := st.entries.filter (inWindow wS now), expireAt := st.expireAt }) := by
  have hlive : rateKeyLive st now = st := by
    rcases rateKeyLive_cases st now with h | h
    · exact h
    · exfalso
      have : (checkRateLimit st now maxR wS).1.allowed = true := by
        rw [checkRateLimit_admit_eq st now maxR wS (by rw [h]; simpa using hR)]
      rw [this] at hdeny; exact absurd hdeny (by simp)
  refine ⟨hlive, ?_, ?_⟩
  · by_contra hlt
    have hlt' : ((rateKeyLive st now).entries.filter (inWindow wS now)).length < maxR := by
      rw [hlive]; omega
    have : (checkRateLimit st now maxR wS).1.allowed = true := by
      rw [checkRateLimit_admit_eq st now maxR wS hlt']
    rw [this] at hdeny; exact absurd hdeny (by simp)
  · have hd : maxR ≤ ((rateKeyLive st now).entries.filter (inWindow wS now)).length := by
      rw [hlive]
      by_contra hlt
      have : (checkRateLimit st now maxR wS).1.allowed = true := by
        rw [checkRateLimit_admit_eq st now maxR wS (by rw [hlive]; omega)]
      rw [this] at hdeny; exact absurd hdeny (by simp)
    rw [checkRateLimit_deny_eq st now maxR wS hd, hlive]

/-- Any check on a state whose entries are all at least a full window old
is admitted (positive quota). -/
theorem checkRateLimit_stale_admitted (st : RateState) (now maxR wS : Nat) (hR : 0 < maxR)
    (hstale : ∀ τ ∈ st.entries, (τ : Int) ≤ (now : Int) - wS * 1000) :
    (checkRateLimit st now maxR wS).1.allowed = true := by
  have hsub : ∀ τ ∈ (rateKeyLive st now).entries, τ ∈ st.entries := by
    rcases rateKeyLive_cases st now with h | h <;> rw [h]
    · exact fun τ hτ => hτ
    · intro τ hτ; simp at hτ
  have hfilt : (rateKeyLive st now).entries.filter (inWindow wS now) = [] := by
    rw [List.filter_eq_nil_iff]
    intro τ hτ hwin
    simp only [inWindow, decide_eq_true_iff] at hwin
    have := hstale τ (hsub τ hτ)
    omega
  rw [checkRateLimit_admit_eq st now maxR wS (by rw [hfilt]; simpa using hR)]

/-- **C7**: a `checkRateLimit` step first drops the timestamps that have
fallen out of the sliding window (and honours the Redis key expiry); if
the surviving count reaches the quota it denies, recording nothing, with
`resetAt` the oldest surviving timestamp plus the window; otherwise it
admits, records the current timestamp (refreshing the key TTL) and
reports `remaining = quota - count - 1`.  Consequently a serial
execution from an empty window never has more than `quota` admissions
inside one window, and a request arriving more than a full window after
a denial (with no intervening requests) is admitted. -/
theorem checkRateLimit_spec (maxR wS : Nat) (hR : 0 < maxR) (hw : 0 < wS)
    (st : RateState) (now : Nat) :
    ((maxR ≤ ((rateKeyLive st now).entries.filter (inWindow wS now)).length →
        ∃ o, ((rateKeyLive st now).entries.filter (inWindow wS now)).min? = some o ∧
          checkRateLimit st now maxR wS =
            ({ allowed := false, remaining := 0, resetAt := o + wS * 1000 },
             { entries := (rateKeyLive st now).entries.filter (inWindow wS now),
               expireAt := (rateKeyLive st now).expireAt })) ∧
     (((rateKeyLive st now).entries.filter (inWindow wS now)).length < maxR →
        checkRateLimit st now maxR wS =
          ({ allowed := true,
             remaining := maxR - ((rateKeyLive st now).entries.filter (inWindow wS now)).length - 1,
             resetAt := now + wS * 1000 },
           { entries := (rateKeyLive st now).entries.filter (inWindow wS now) ++ [now],
             expireAt := some (now + wS * 1000) }))) ∧
    (∀ ts : List Nat, List.Chain' (fun a b => a ≤ b) ts →
       ((admittedTimes maxR wS rlInit ts).filter (inWindow wS (ts.getLastD 0))).length ≤ maxR) ∧
    (∀ n n', (checkRateLimit st n maxR wS).1.allowed = false →
       (∀ τ ∈ st.entries, τ ≤ n) → n + wS * 1000 < n' →
       (checkRateLimit (checkRateLimit st n maxR wS).2 n' maxR wS).1.allowed = true) := by
  refine ⟨⟨?_, ?_⟩, ?_, ?_⟩
  · intro hd
    have hne : ((rateKeyLive st now).entries.filter (inWindow wS now)) ≠ [] := by
      intro hnil
      rw [hnil] at hd
      simp at hd
      omega
    obtain ⟨o, ho⟩ : ∃ o, ((rateKeyLive st now).entries.filter (inWindow wS now)).min? = some o := by
      cases hmin : ((rateKeyLive st now).entries.filter (inWindow wS now)).min? with
      | none => exact absurd (List.min?_eq_none_iff.mp hmin) hne
      | some o => exact ⟨o, rfl⟩
    exact ⟨o, ho, by rw [checkRateLimit_deny_eq st now maxR wS hd, ho]⟩
  · exact checkRateLimit_admit_eq st now maxR wS
  · exact fun ts hts => rl_no_overadmission maxR wS hw ts hts
  · intro n n' hdeny hle hwin
    obtain ⟨-, -, heq⟩ := checkRateLimit_denied_shape st n maxR wS hR hdeny
    apply checkRateLimit_stale_admitted _ n' maxR wS hR
    intro τ hτ
    rw [heq] at hτ
    simp only at hτ
    have hτ' : τ ∈ st.entries := List.mem_of_mem_filter hτ
    have h1 : τ ≤ n := hle τ hτ'
    have : (τ : Int) ≤ (n : Int) := by exact_mod_cast h1
    have : (n : Int) + (wS : Int) * 1000 < (n' : Int) := by exact_mod_cast hwin
    omega

theorem checkRateLimit_spec_witness :
    0 < 2 ∧ 0 < 1 ∧
    ((admittedTimes 2 1 rlInit [0, 100, 200, 1500]).filter (inWindow 1 1500)).length ≤ 2 :=
  ⟨by decide, by decide,
   (checkRateLimit_spec 2 1 (by decide) (by decide) rlInit 0).2.1
     [0, 100, 200, 1500] (by norm_num [List.chain'_cons])⟩

/-- **C9**: a denied check leaves the user's window unchanged apart from
the pruning of already-expired timestamps: no timestamp is recorded, the
key expiry is not refreshed, the in-window timestamp set is untouched
and no entry is added. -/
theorem checkRateLimit_denied_frame (st : RateState) (now maxR wS : Nat) (hR : 0 < maxR)
    (hdeny : (checkRateLimit st now maxR wS).1.allowed = false) :
    (checkRateLimit st now maxR wS).2.expireAt = st.expireAt ∧
    (checkRateLimit st now maxR wS).2.entries = st.entries.filter (inWindow wS now) ∧
    (checkRateLimit st now maxR wS).2.entries.filter (inWindow wS now) =
      st.entries.filter (inWindow wS now) ∧
    (checkRateLimit st now maxR wS).2.entries.length ≤ st.entries.length := by
  obtain ⟨-, -, heq⟩ := checkRateLimit_denied_shape st now maxR wS hR hdeny
  rw [heq]
  refine ⟨rfl, rfl, ?_, List.length_filter_le _ _⟩
  simp only [List.filter_filter, Bool.and_self]

def c9st : RateState := ⟨[100, 200], some 5000⟩

theorem checkRateLimit_denied_frame_witness :
    (checkRateLimit c9st 300 2 1).2.expireAt = c9st.expireAt ∧
    (checkRateLimit c9st 300 2 1).2.entries = c9st.entries.filter (inWindow 1 300) ∧
    (checkRateLimit c9st 300 2 1).2.entries.filter (inWindow 1 300) =
      c9st.entries.filter (inWindow 1 300) ∧
    (checkRateLimit c9st 300 2 1).2.entries.length ≤ c9st.entries.length :=
  checkRateLimit_denied_frame c9st 300 2 1 (by decide) (by decide)

/-! ## Workbook operations and the operation executor

`WorkbookOperation.type` is a string at runtime (the TypeScript union is
erased); `data` is an opaque JSON payload modelled as an optional string.
Each remote Graph request is recorded as a `GraphCallEvent` carrying the
breaker name it is gated by (`viaBreaker = none` when the code invokes
`graphRetry` directly without `protectedGraphCall`).  The outcome a call
eventually produces — after the retry loop inside it — is supplied by an
oracle `api : GraphCallEvent → Except String Unit` whose error value is
the surfaced `err.message`. -/

structure OpOptions where
  worksheet : Option String
  continueOnError : Bool
  numberFormat : Option String
  hasHeaders : Option Bool
  chartType : Option String
deriving DecidableEq

structure WorkbookOperation where
  type : String
  target : String
  data : Option String
  options : Option OpOptions
deriving DecidableEq

/-- `operation.options?.worksheet || 'Sheet1'`. -/
def worksheetOf (op : WorkbookOperation) : String :=
  match op.options with
  | some o => o.worksheet.getD "Sheet1"
  | none => "Sheet1"

/-- `operation.options?.continueOnError` truthiness. -/
def continueOnErrorOf (op : WorkbookOperation) : Bool :=
  match op.options with
  | some o => o.continueOnError
  | none => false

/-- `operation.options?.hasHeaders !== false`. -/
def hasHeadersOf (op : WorkbookOperation) : Bool :=
  match op.options with
  | some o => decide (o.hasHeaders ≠ some false)
  | none => true

/-- `operation.options?.chartType || 'ColumnClustered'`. -/
def chartTypeOf (op : WorkbookOperation) : String :=
  match op.options with
  | some o => o.chartType.getD "ColumnClustered"
  | none => "ColumnClustered"

inductive HttpMethod where
  | patch
  | post
deriving DecidableEq

inductive RequestBody where
  | rangeValues (values : Option String)
  | rangeValuesFormat (values : Option String) (numberFormat : Option String)
  | formatBody (data : Option String)
  | tableAdd (address : String) (hasHeaders : Bool)
  | chartAdd (chartType : String) (sourceData : String) (seriesBy : String)
  | clearBody (applyTo : String)
  | createSessionBody (persistChanges : Bool)
deriving DecidableEq

structure GraphCallEvent where
  viaBreaker : Option String
  method : HttpMethod
  path : String
  sessionHeader : Option String
  body : RequestBody
deriving DecidableEq

/-- `/drives/{driveId}/items/{itemId}/workbook` or
`/me/drive/items/{itemId}/workbook`. -/
def basePath (itemId : String) (driveId : Option String) : String :=
  match driveId with
  | some d => "/drives/" ++ d ++ "/items/" ++ itemId ++ "/workbook"
  | none => "/me/drive/items/" ++ itemId ++ "/workbook"

def rangePath (itemId : String) (driveId : Option String) (op : WorkbookOperation) : String :=
  basePath itemId driveId ++ "/worksheets(\x27" ++ worksheetOf op ++ "\x27)/range(address=\x27"
    ++ op.target ++ "\x27)"

/-- `applyOperation`: dispatch on the operation's type tag, issuing one
remote call per known tag — each through `graphRetry` alone, with no
circuit breaker (`viaBreaker = none`) — and throwing
`Unknown operation type: ...` for anything else before any remote call. -/
def applyOperation (api : GraphCallEvent → Except String Unit) (itemId : String)
    (driveId : Option String) (sessionId : String) (operation : WorkbookOperation) :
    List GraphCallEvent × Except String Unit :=
  if operation.type = "insert" then
    let ev : GraphCallEvent :=
      ⟨none, .patch, rangePath itemId driveId operation, some sessionId,
       .rangeValues operation.data⟩
    ([ev], api ev)
  else if operation.type = "update" then
    let ev : GraphCallEvent :=
      ⟨none, .patch, rangePath itemId driveId operation, some sessionId,
       .rangeValuesFormat operation.data (operation.options.bind (·.numberFormat))⟩
    ([ev], api ev)
  else if operation.type = "format" then
    let ev : GraphCallEvent :=
      ⟨none, .patch, rangePath itemId driveId operation ++ "/format", some sessionId,
       .formatBody operation.data⟩
    ([ev], api ev)
  else if operation.type = "table" then
    let ev : GraphCallEvent :=
      ⟨none, .post,
       basePath itemId driveId ++ "/worksheets(\x27" ++ worksheetOf operation ++ "\x27)/tables/add",
       some sessionId, .tableAdd operation.target (hasHeadersOf operation)⟩
    ([ev], api ev)
  else if operation.type = "chart" then
    let ev : GraphCallEvent :=
      ⟨none, .post,
       basePath itemId driveId ++ "/worksheets(\x27" ++ worksheetOf operation ++ "\x27)/charts/add",
       some sessionId, .chartAdd (chartTypeOf operation) operation.target "Auto"⟩
    ([ev], api ev)
  else if operation.type = "delete" then
    let ev : GraphCallEvent :=
      ⟨none, .post, rangePath itemId driveId operation ++ "/clear", some sessionId,
       .clearBody "Contents"⟩
    ([ev], api ev)
  else
    ([], .error ("Unknown operation type: " ++ operation.type))

structure OperationError where
  operation : Nat
  error : String
deriving DecidableEq

structure OperationResult where
  applied : List WorkbookOperation
  errors : Option (List OperationError)
  sessionId : Option String
deriving DecidableEq

/-- The sequential loop of `applyWorkbookOperations` (index `i` is the
position of the head of the remaining list in the original batch):
success pushes the operation onto `applied`; failure records
`{operation: i, error}` and stops unless the failing operation's options
request continue-on-error. -/
def applyOpsLoop (api : GraphCallEvent → Except String Unit) (itemId : String)
    (driveId : Option String) (sessionId : String) :
    Nat → List WorkbookOperation → List WorkbookOperation × List OperationError × List GraphCallEvent
  | _, [] => ([], [], [])
  | i, op :: rest =>
    let step := applyOperation api itemId driveId sessionId op
    match step.2 with
    | .ok _ =>
      let r := applyOpsLoop api itemId driveId sessionId (i + 1) rest
      (op :: r.1, r.2.1, step.1 ++ r.2.2)
    | .error msg =>
      if continueOnErrorOf op then
        let r := applyOpsLoop api itemId driveId sessionId (i + 1) rest
        (r.1, ⟨i, msg⟩ :: r.2.1, step.1 ++ r.2.2)
      else ([], [⟨i, msg⟩], step.1)

/-! ## Session cache (Redis) and `getWorkbookSession` -/

structure CacheEntry where
  value : String
  expireAt : Nat
deriving DecidableEq

/-- Redis string-key store with per-key expiry (newest binding first). -/
def kvGet (st : List (String × CacheEntry)) (k : String) (now : Nat) : Option String :=
  match st.lookup k with
  | some e => if now < e.expireAt then some e.value else none
  | none => none

def kvSet (st : List (String × CacheEntry)) (k v : String) (expireAt : Nat) :
    List (String × CacheEntry) :=
  (k, ⟨v, expireAt⟩) :: st

structure CacheState where
  entries : List (String × CacheEntry)
deriving DecidableEq

/-- `workbookSession:{driveId || 'default'}:{itemId}`. -/
def sessionKey (driveId : Option String) (itemId : String) : String :=
  "workbookSession:" ++ driveId.getD "default" ++ ":" ++ itemId

/-- `getCachedSession`: read the cached session id and, on a hit, renew
the key's TTL to 300 seconds (`EXPIRE key 300`). -/
def getCachedSession (st : CacheState) (now : Nat) (driveId : Option String)
    (itemId : String) : Option String × CacheState :=
  match kvGet st.entries (sessionKey driveId itemId) now with
  | some sid => (some sid, ⟨kvSet st.entries (sessionKey driveId itemId) sid (now + 300 * 1000)⟩)
  | none => (none, st)

/-- `cacheSession(driveId, itemId, sessionId, ttlSeconds)` via `SETEX`. -/
def cacheSession (st : CacheState) (now : Nat) (driveId : Option String) (itemId : String)
    (sessionId : String) (ttlSeconds : Nat) : CacheState :=
  ⟨kvSet st.entries (sessionKey driveId itemId) sessionId (now + ttlSeconds * 1000)⟩

def createSessionPath (itemId : String) (driveId : Option String) : String :=
  basePath itemId driveId ++ "/createSession"

/-- `getWorkbookSession`: return the cached session if present, else
create a remote session with `{persistChanges: true}` through
`protectedGraphCall('createSession', graphRetry(...))` and cache it for
300 seconds.  `createOutcome` is the outcome of that protected call;
its failure propagates. -/
def getWorkbookSession (createOutcome : Except GraphError String) (st : CacheState)
    (now : Nat) (itemId : String) (driveId : Option String) :
    Except GraphError String × CacheState × List GraphCallEvent :=
  match getCachedSession st now driveId itemId with
  | (some sid, st') => (.ok sid, st', [])
  | (none, st') =>
    let ev : GraphCallEvent :=
      ⟨some "createSession", .post, createSessionPath itemId driveId, none,
       .createSessionBody true⟩
    match createOutcome with
    | .ok sid => (.ok sid, cacheSession st' now driveId itemId sid 300, [ev])
    | .error e => (.error e, st', [ev])

/-- `applyWorkbookOperations`: acquire a session, then run the loop and
assemble the result (`errors` present iff at least one operation failed). -/
def applyWorkbookOperations (createOutcome : Except GraphError String)
    (api : GraphCallEvent → Except String Unit) (cache : CacheState) (now : Nat)
    (itemId : String) (driveId : Option String) (operations : List WorkbookOperation) :
    Except GraphError OperationResult × CacheState × List GraphCallEvent :=
  match getWorkbookSession createOutcome cache now itemId driveId with
  | (.error e, cache', evs) => (.error e, cache', evs)
  | (.ok sid, cache', evs) =>
    let r := applyOpsLoop api itemId driveId sid 0 operations
    (.ok { applied := r.1,
           errors := if r.2.1 = [] then none else some r.2.1,
           sessionId := some sid },
     cache', evs ++ r.2.2)

theorem applyOpsLoop_sublist (api : GraphCallEvent → Except String Unit) (itemId : String)
    (driveId : Option String) (sid : String) :
    ∀ (ops : List WorkbookOperation) (i : Nat),
      (applyOpsLoop api itemId driveId sid i ops).1.Sublist ops := by
  intro ops
  induction ops with
  | nil => intro i; simp [applyOpsLoop]
  | cons op rest ih =>
    intro i
    simp only [applyOpsLoop]
    cases h : (applyOperation api itemId driveId sid op).2 with
    | ok v =>
      simpa [h] using (ih (i + 1)).cons₂ op
    | error msg =>
      by_cases hc : continueOnErrorOf op = true
      · simpa [h, hc] using (ih (i + 1)).cons op
      · simp only [Bool.not_eq_true] at hc
        simp [h, hc]

theorem applyOpsLoop_stops (api : GraphCallEvent → Except String Unit) (itemId : String)
    (driveId : Option String) (sid : String) :
    ∀ (ops : List WorkbookOperation) (i j : Nat) (op : WorkbookOperation) (msg : String),
      ops.get? j = some op →
      (applyOperation api itemId driveId sid op).2 = .error msg →
      continueOnErrorOf op = false →
      (applyOpsLoop api itemId driveId sid i ops).1.Sublist (ops.take j) := by
  intro ops
  induction ops with
  | nil => intro i j op msg hget; simp at hget
  | cons op0 rest ih =>
    intro i j op msg hget herr hco
    cases j with
    | zero =>
      simp only [List.get?] at hget
      cases hget
      simp [applyOpsLoop, herr, hco]
    | succ j' =>
      simp only [List.get?] at hget
      simp only [applyOpsLoop, List.take_succ_cons]
      cases h : (applyOperation api itemId driveId sid op0).2 with
      | ok v =>
        simpa [h] using (ih (i + 1) j' op msg hget herr hco).cons₂ op0
      | error msg0 =>
        by_cases hc : continueOnErrorOf op0 = true
        · simpa [h, hc] using (ih (i + 1) j' op msg hget herr hco).cons op0
        · simp only [Bool.not_eq_true] at hc
          simp [h, hc]

theorem applyOpsLoop_prefix_of_no_continue (api : GraphCallEvent → Except String Unit)
    (itemId : String) (driveId : Option String) (sid : String) :
    ∀ (ops : List WorkbookOperation) (i : Nat),
      (∀ op ∈ ops, continueOnErrorOf op = false) →
      ∃ t, ops = (applyOpsLoop api itemId driveId sid i ops).1 ++ t := by
  intro ops
  induction ops with
  | nil => intro i _; exact ⟨[], rfl⟩
  | cons op0 rest ih =>
    intro i hall
    cases h : (applyOperation api itemId driveId sid op0).2 with
    | ok v =>
      obtain ⟨t, ht⟩ := ih (i + 1) (fun op hop => hall op (List.mem_cons_of_mem op0 hop))
      exact ⟨t, by simp only [applyOpsLoop, h]; exact congrArg (op0 :: ·) ht⟩
    | error msg =>
      have hc : continueOnErrorOf op0 = false := hall op0 (List.mem_cons_self op0 rest)
      exact ⟨op0 :: rest, by simp [applyOpsLoop, h, hc]⟩

/-- **C1 (amended)**: the executor's `applied` list is always a
*subsequence* of `operations` (the successfully applied operations in
batch order); it is a *prefix* whenever no operation requests
continue-on-error (in particular with default options); and when
operation `j` fails with continue-on-error unset, no operation at
index ≥ j (hence > j) appears in `applied`. -/
theorem applyWorkbookOperations_applied_shape (createOutcome : Except GraphError String)
    (api : GraphCallEvent → Except String Unit) (cache : CacheState) (now : Nat)
    (itemId : String) (driveId : Option String) (operations : List WorkbookOperation)
    (res : OperationResult)
    (hres : (applyWorkbookOperations createOutcome api cache now itemId driveId operations).1
      = .ok res) :
    res.applied.Sublist operations ∧
    ((∀ op ∈ operations, continueOnErrorOf op = false) → ∃ t, operations = res.applied ++ t) ∧
    (∀ sid, res.sessionId = some sid →
      ∀ j op msg, operations.get? j = some op →
        (applyOperation api itemId driveId sid op).2 = .error msg →
        continueOnErrorOf op = false →
        res.applied.Sublist (operations.take j)) := by
  unfold applyWorkbookOperations at hres
  cases hsess : getWorkbookSession createOutcome cache now itemId driveId with
  | mk outc rest =>
    cases outc with
    | error e => rw [hsess] at hres; simp at hres
    | ok sid0 =>
      rw [hsess] at hres
      simp only [Except.ok.injEq] at hres
      have happlied : res.applied = (applyOpsLoop api itemId driveId sid0 0 operations).1 := by
        rw [← hres]
      have hsid : res.sessionId = some sid0 := by rw [← hres]
      refine ⟨?_, ?_, ?_⟩
      · rw [happlied]; exact applyOpsLoop_sublist api itemId driveId sid0 operations 0
      · intro hall
        obtain ⟨t, ht⟩ :=
          applyOpsLoop_prefix_of_no_continue api itemId driveId sid0 operations 0 hall
        exact ⟨t, by rw [happlied]; exact ht⟩
      · intro sid hsid' j op msg hget herr hco
        rw [hsid] at hsid'
        cases hsid'
        rw [happlied]
        exact applyOpsLoop_stops api itemId driveId sid0 operations 0 j op msg hget herr hco

/-- The two-operation batch of the spec scenario: an update that fails
remotely and a format that would succeed, both with default options. -/
def c1upd : WorkbookOperation := ⟨"update", "A1:B2", some "d0", none⟩

def c1fmt : WorkbookOperation := ⟨"format", "C1", some "d1", none⟩

def c1api : GraphCallEvent → Except String Unit := fun ev =>
  match ev.body with
  | .rangeValuesFormat _ _ => .error "boom"
  | _ => .ok ()

def c1create : Except GraphError String := .ok "s1"

theorem applyWorkbookOperations_applied_shape_witness :
    (applyWorkbookOperations c1create c1api ⟨[]⟩ 0 "wb1" none [c1upd, c1fmt]).1 =
      .ok { applied := [], errors := some [⟨0, "boom"⟩], sessionId := some "s1" } ∧
    (List.Sublist ([] : List WorkbookOperation) [c1upd, c1fmt] ∧
     (∃ t, [c1upd, c1fmt] = ([] : List WorkbookOperation) ++ t) ∧
     List.Sublist ([] : List WorkbookOperation) ([c1upd, c1fmt].take 0)) := by
  have hres : (applyWorkbookOperations c1create c1api ⟨[]⟩ 0 "wb1" none [c1upd, c1fmt]).1 =
      .ok { applied := [], errors := some [⟨0, "boom"⟩], sessionId := some "s1" } := by rfl
  have h := applyWorkbookOperations_applied_shape c1create c1api ⟨[]⟩ 0 "wb1" none
    [c1upd, c1fmt] { applied := [], errors := some [⟨0, "boom"⟩], sessionId := some "s1" } hres
  exact ⟨hres, h.1, h.2.1 (by decide), h.2.2 "s1" rfl 0 c1upd "boom" rfl rfl rfl⟩

/-- A batch whose first operation carries `continueOnError` and fails,
while the second succeeds. -/
def c1cop0 : WorkbookOperation := ⟨"update", "A1", some "d0", some ⟨none, true, none, none, none⟩⟩

def c1cop1 : WorkbookOperation := ⟨"insert", "B1", some "d1", none⟩

/-- **C1 counterexample**: with `continueOnError` on a failing first
operation, the executor skips it but still applies the second, so
`applied = [c1cop1]` is *not* a prefix of `[c1cop0, c1cop1]`. -/
theorem applyWorkbookOperations_prefix_counterexample :
    (applyWorkbookOperations c1create c1api ⟨[]⟩ 0 "wb1" none [c1cop0, c1cop1]).1 =
      .ok { applied := [c1cop1], errors := some [⟨0, "boom"⟩], sessionId := some "s1" } ∧
    ¬ ∃ t, [c1cop0, c1cop1] = [c1cop1] ++ t := by
  constructor
  · rfl
  · rintro ⟨t, ht⟩
    simp only [List.cons_append, List.cons.injEq] at ht
    exact absurd ht.1 (by decide)

/-- **C2 (amended)**: only the Session Cache's session-creation call
passes through `protectedGraphCall` (under the breaker name
`createSession`); the Operation Executor's six operation-type calls
invoke `graphRetry` directly and carry no breaker at all. -/
theorem breaker_coverage (api : GraphCallEvent → Except String Unit) (itemId : String)
    (driveId : Option String) (sessionId : String) (op : WorkbookOperation)
    (createOutcome : Except GraphError String) (st : CacheState) (now : Nat) :
    (∀ ev ∈ (applyOperation api itemId driveId sessionId op).1, ev.viaBreaker = none) ∧
    (∀ ev ∈ (getWorkbookSession createOutcome st now itemId driveId).2.2,
       ev.viaBreaker = some "createSession") := by
  constructor
  · unfold applyOperation
    split_ifs <;> intro ev hev <;> simp only [List.mem_singleton] at * <;>
      first
        | (cases hev; rfl)
        | simp at hev
  · unfold getWorkbookSession
    cases hc : getCachedSession st now driveId itemId with
    | mk o st' =>
      cases o with
      | some sid => intro ev hev; simp at hev
      | none =>
        cases createOutcome with
        | ok sid => intro ev hev; simp only [List.mem_singleton] at hev; cases hev; rfl
        | error e => intro ev hev; simp only [List.mem_singleton] at hev; cases hev; rfl

def c2op : WorkbookOperation := ⟨"insert", "A1", some "v", none⟩

def c2api : GraphCallEvent → Except String Unit := fun _ => .ok ()

/-- The single remote request emitted for `c2op`. -/
def c2ev : GraphCallEvent :=
  ⟨none, .patch,
   "/me/drive/items/wb1/workbook/worksheets(\x27Sheet1\x27)/range(address=\x27A1\x27)",
   some "s1", .rangeValues (some "v")⟩

/-- The session-creation request emitted on a cache miss. -/
def c2sev : GraphCallEvent :=
  ⟨some "createSession", .post, "/me/drive/items/wb1/workbook/createSession", none,
   .createSessionBody true⟩

theorem breaker_coverage_witness :
    c2ev.viaBreaker = none ∧ c2sev.viaBreaker = some "createSession" :=
  ⟨(breaker_coverage c2api "wb1" none "s1" c2op (.ok "s1") ⟨[]⟩ 0).1 c2ev (by decide),
   (breaker_coverage c2api "wb1" none "s1" c2op (.ok "s1") ⟨[]⟩ 0).2 c2sev (by decide)⟩

/-- **C2 counterexample**: the insert operation `c2op` makes exactly one
remote call, and that call is not wrapped by any circuit breaker —
refuting the claim that every Operation Executor remote call passes
through `protectedGraphCall`. -/
theorem applyOperation_bypasses_breaker_counterexample :
    (applyOperation c2api "wb1" none "s1" c2op).1.all (fun ev => ev.viaBreaker.isSome) = false ∧
    (applyOperation c2api "wb1" none "s1" c2op).1 ≠ [] := by
  constructor
  · rfl
  · decide

/-- **C8**: session acquisition returns a cached, unexpired session
without any remote call while extending its TTL by 300 s; otherwise it
issues one breaker-protected `createSession` request with
`{persistChanges: true}`, caches the new session id for a fixed 300 s
and returns it; and a creation failure propagates to the caller. -/
theorem getWorkbookSession_spec (createOutcome : Except GraphError String) (st : CacheState)
    (now : Nat) (itemId : String) (driveId : Option String) :
    (∀ sid, kvGet st.entries (sessionKey driveId itemId) now = some sid →
       getWorkbookSession createOutcome st now itemId driveId =
         (.ok sid,
          ⟨kvSet st.entries (sessionKey driveId itemId) sid (now + 300 * 1000)⟩, []) ∧
       (∀ t, t < now + 300 * 1000 →
          kvGet (getWorkbookSession createOutcome st now itemId driveId).2.1.entries
            (sessionKey driveId itemId) t = some sid)) ∧
    (kvGet st.entries (sessionKey driveId itemId) now = none →
       (∀ sid, createOutcome = .ok sid →
          getWorkbookSession createOutcome st now itemId driveId =
            (.ok sid, cacheSession st now driveId itemId sid 300,
             [⟨some "createSession", .post, createSessionPath itemId driveId, none,
               .createSessionBody true⟩])) ∧
       (∀ e, createOutcome = .error e →
          getWorkbookSession createOutcome st now itemId driveId =
            (.error e, st,
             [⟨some "createSession", .post, createSessionPath itemId driveId, none,
               .createSessionBody true⟩]))) := by
  constructor
  · intro sid hsid
    have heq : getWorkbookSession createOutcome st now itemId driveId =
        (.ok sid, ⟨kvSet st.entries (sessionKey driveId itemId) sid (now + 300 * 1000)⟩, []) := by
      unfold getWorkbookSession getCachedSession
      rw [hsid]
    refine ⟨heq, ?_⟩
    intro t ht
    rw [heq]
    simp [kvGet, kvSet, List.lookup, ht]
  · intro hmiss
    constructor
    · intro sid hco
      unfold getWorkbookSession getCachedSession
      rw [hmiss, hco]
    · intro e hco
      unfold getWorkbookSession getCachedSession
      rw [hmiss, hco]

def c8cache : CacheState :=
  ⟨[(sessionKey none "wb1", ⟨"cached-sess", 1000⟩)]⟩

theorem getWorkbookSession_spec_witness :
    getWorkbookSession (.error ⟨some 503, none, "down"⟩) c8cache 500 "wb1" none =
      (.ok "cached-sess",
       ⟨kvSet c8cache.entries (sessionKey none "wb1") "cached-sess" (500 + 300 * 1000)⟩, []) ∧
    kvGet (getWorkbookSession (.error ⟨some 503, none, "down"⟩) c8cache 500 "wb1" none).2.1.entries
      (sessionKey none "wb1") 200000 = some "cached-sess" ∧
    getWorkbookSession (.error ⟨some 503, none, "down"⟩) ⟨[]⟩ 500 "wb1" none =
      (.error ⟨some 503, none, "down"⟩, ⟨[]⟩,
       [⟨some "createSession", .post, createSessionPath "wb1" none, none,
         .createSessionBody true⟩]) := by
  have h1 := (getWorkbookSession_spec (.error ⟨some 503, none, "down"⟩) c8cache 500 "wb1" none).1
    "cached-sess" (by decide)
  have h2 := (getWorkbookSession_spec (.error ⟨some 503, none, "down"⟩) ⟨[]⟩ 500 "wb1" none).2
    (by decide) |>.2 ⟨some 503, none, "down"⟩ rfl
  exact ⟨h1.1, h1.2 200000 (by decide), h2⟩

/-! ## The `/microsoft-graph/workbook/apply` handler (fastify server)

The handler, in source order: zod validation of the request body (the
operation `type` must be one of the six known tags — a `ZodError` is
thrown before anything else runs and surfaces as a batch-level error);
the Redis rate-limit check for the authenticated user (quota 100 per 60
seconds); the idempotency lookup when a key is present, returning the
stored result verbatim on a hit; the OBO token exchange; the call to
`applyWorkbookOperations`; and finally the idempotency store write
(24-hour TTL) when a key is present.  `Event` records, in order, the
handler's store accesses and remote calls; `durationMs` (the measured
wall-clock duration written into the response) is a parameter. -/

def validTypes : List String := ["insert", "update", "delete", "format", "chart", "table"]

def validOp (op : WorkbookOperation) : Bool := validTypes.contains op.type

structure ApplyRequest where
  itemId : String
  driveId : Option String
  operations : List WorkbookOperation
  idempotencyKey : Option String
deriving DecidableEq

/-- `ApplyRequestSchema.parse` succeeds iff every operation carries a
known type tag (the other fields are enforced by typing). -/
def validateRequest (req : ApplyRequest) : Bool := req.operations.all validOp

structure StoredResult where
  success : Bool
  applied : List WorkbookOperation
  errors : Option (List OperationError)
  durationMs : Nat
  sessionId : Option String
deriving DecidableEq

structure IdemEntry where
  value : StoredResult
  expireAt : Nat
deriving DecidableEq

/-- `checkIdempotencyKey` + `getIdempotencyResult` combined: the stored
result under `idem:{key}`, if present and unexpired. -/
def idemGet (st : List (String × IdemEntry)) (k : String) (now : Nat) : Option StoredResult :=
  match st.lookup k with
  | some e => if now < e.expireAt then some e.value else none
  | none => none

/-- `storeIdempotencyKey` via `SETEX` (24-hour TTL supplied by caller). -/
def idemSet (st : List (String × IdemEntry)) (k : String) (r : StoredResult)
    (expireAt : Nat) : List (String × IdemEntry) :=
  (k, ⟨r, expireAt⟩) :: st

inductive ApplyResponse where
  | ok (r : StoredResult)
  | rateLimited (resetAt retryAfter : Nat)
  | validationError
  | throttled (retryAfter : Nat)
  | locked
  | conflict
  | serverError (message : String)
deriving DecidableEq

inductive Event where
  | rateCheck
  | idemLookup (key : String)
  | oboExchange
  | graphCall (ev : GraphCallEvent)
  | idemStore (key : String)
deriving DecidableEq

/-- An event that touches only process-local stores (Redis), no remote
Graph/MSAL API. -/
def isLocalEvent : Event → Bool
  | .graphCall _ => false
  | .oboExchange => false
  | _ => true

/-- The catch-block mapping of a Graph error escaping the batch:
429 → throttled (with `retry-after` defaulting to 60), 423 → locked,
409 → conflict, anything else → generic 500. -/
def mapGraphError (e : GraphError) : ApplyResponse :=
  if e.statusCode = some 429 then .throttled (e.retryAfter.getD 60)
  else if e.statusCode = some 423 then .locked
  else if e.statusCode = some 409 then .conflict
  else .serverError e.message

structure ServerState where
  rate : RateState
  idem : List (String × IdemEntry)
  cache : CacheState
deriving DecidableEq

/-- The post-rate-check remainder of the handler: idempotency lookup
(when a key is present), OBO exchange, batch execution, store write. -/
def applyHandlerRest (st1 : ServerState) (now durationMs : Nat) (req : ApplyRequest)
    (obo : Except String Unit) (co : Except GraphError String)
    (api : GraphCallEvent → Except String Unit) (keyEvents : List Event)
    (key : Option String) : ApplyResponse × ServerState × List Event :=
  match obo with
  | .error msg => (.serverError msg, st1, keyEvents ++ [.oboExchange])
  | .ok _ =>
    let run := applyWorkbookOperations co api st1.cache now req.itemId req.driveId req.operations
    match run.1 with
    | .error e =>
      (mapGraphError e, ⟨st1.rate, st1.idem, run.2.1⟩,
       keyEvents ++ [.oboExchange] ++ run.2.2.map Event.graphCall)
    | .ok opres =>
      let resp : StoredResult :=
        ⟨true, opres.applied, opres.errors, durationMs, opres.sessionId⟩
      match key with
      | some k =>
        (.ok resp, ⟨st1.rate, idemSet st1.idem k resp (now + 86400 * 1000), run.2.1⟩,
         keyEvents ++ [.oboExchange] ++ run.2.2.map Event.graphCall ++ [.idemStore k])
      | none =>
        (.ok resp, ⟨st1.rate, st1.idem, run.2.1⟩,
         keyEvents ++ [.oboExchange] ++ run.2.2.map Event.graphCall)

/-- The apply endpoint: validation, then rate limit, then idempotency
replay, then execution and store write (source order of
`fastify.post('/microsoft-graph/workbook/apply')`). -/
def applyHandler (st : ServerState) (now durationMs : Nat) (req : ApplyRequest)
    (obo : Except String Unit) (co : Except GraphError String)
    (api : GraphCallEvent → Except String Unit) : ApplyResponse × ServerState × List Event :=
  if validateRequest req = false then (.validationError, st, [])
  else
    let rl := checkRateLimit st.rate now 100 60
    let st1 : ServerState := ⟨rl.2, st.idem, st.cache⟩
    if rl.1.allowed = false then
      (.rateLimited rl.1.resetAt ((rl.1.resetAt - now + 999) / 1000), st1, [.rateCheck])
    else
      let rest : ApplyResponse × ServerState × List Event :=
        match req.idempotencyKey with
        | some k =>
          match idemGet st1.idem k now with
          | some r => (.ok r, st1, [Event.idemLookup k])
          | none => applyHandlerRest st1 now durationMs req obo co api [.idemLookup k] (some k)
        | none => applyHandlerRest st1 now durationMs req obo co api [] none
      (rest.1, rest.2.1, .rateCheck :: rest.2.2)

/-- **C4**: a batch containing an operation with an unknown type tag is
rejected by schema validation before anything runs: the handler returns
a batch-level validation error, the server state is untouched (no rate
quota consumed, nothing stored), and no event occurs at all — no remote
call (hence no retry attempt consumed) and no per-operation error record
— regardless of any `continueOnError` options. -/
theorem applyHandler_unknown_type (st : ServerState) (now durationMs : Nat)
    (req : ApplyRequest) (obo : Except String Unit) (co : Except GraphError String)
    (api : GraphCallEvent → Except String Unit) (op : WorkbookOperation)
    (hop : op ∈ req.operations) (hbad : validTypes.contains op.type = false) :
    applyHandler st now durationMs req obo co api = (.validationError, st, []) := by
  have hval : validateRequest req = false := by
    unfold validateRequest
    rw [List.all_eq_false]
    refine ⟨op, hop, ?_⟩
    simp only [validOp, Bool.not_eq_true]
    exact hbad
  unfold applyHandler
  rw [if_pos hval]

def c4badOp : WorkbookOperation := ⟨"merge", "A1", none, some ⟨none, true, none, none, none⟩⟩

def c4goodOp : WorkbookOperation := ⟨"insert", "B2", some "v", none⟩

def c4req : ApplyRequest := ⟨"wb1", none, [c4goodOp, c4badOp, c4goodOp], some "k9"⟩

def c4st : ServerState := ⟨rlInit, [], ⟨[]⟩⟩

theorem applyHandler_unknown_type_witness :
    applyHandler c4st 0 0 c4req (.ok ()) (.ok "s1") c2api = (.validationError, c4st, []) :=
  applyHandler_unknown_type c4st 0 0 c4req (.ok ()) (.ok "s1") c2api c4badOp
    (by decide) (by decide)

theorem checkRateLimit_allowed_mem (st : RateState) (now maxR wS : Nat)
    (h : (checkRateLimit st now maxR wS).1.allowed = true) :
    now ∈ (checkRateLimit st now maxR wS).2.entries := by
  by_cases hc : maxR ≤ ((rateKeyLive st now).entries.filter (inWindow wS now)).length
  · rw [checkRateLimit_deny_eq st now maxR wS hc] at h
    simp at h
  · rw [checkRateLimit_admit_eq st now maxR wS (by omega)]
    simp

/-- **C3 (amended)**: the handler performs the rate-limit check *before*
the idempotency lookup: every post-validation trace starts with the rate
check; when the user is over quota the request is denied outright, even
if a stored result exists; and a replayed submission that is admitted
returns the stored result verbatim but has consumed one quota slot (its
timestamp is recorded in the rate window). -/
theorem applyHandler_rate_before_idem (st : ServerState) (now durationMs : Nat)
    (req : ApplyRequest) (obo : Except String Unit) (co : Except GraphError String)
    (api : GraphCallEvent → Except String Unit) (k : String)
    (hk : req.idempotencyKey = some k) (hval : validateRequest req = true) :
    (applyHandler st now durationMs req obo co api).2.2.head? = some .rateCheck ∧
    ((checkRateLimit st.rate now 100 60).1.allowed = false →
      applyHandler st now durationMs req obo co api =
        (.rateLimited (checkRateLimit st.rate now 100 60).1.resetAt
           (((checkRateLimit st.rate now 100 60).1.resetAt - now + 999) / 1000),
         ⟨(checkRateLimit st.rate now 100 60).2, st.idem, st.cache⟩, [.rateCheck])) ∧
    (∀ r, (checkRateLimit st.rate now 100 60).1.allowed = true →
      idemGet st.idem k now = some r →
      applyHandler st now durationMs req obo co api =
        (.ok r, ⟨(checkRateLimit st.rate now 100 60).2, st.idem, st.cache⟩,
         [.rateCheck, .idemLookup k]) ∧
      now ∈ (checkRateLimit st.rate now 100 60).2.entries) := by
  have hvf : ¬ (validateRequest req = false) := by simp [hval]
  refine ⟨?_, ?_, ?_⟩
  · unfold applyHandler
    rw [if_neg hvf]
    by_cases hrl : (checkRateLimit st.rate now 100 60).1.allowed = false
    · rw [if_pos hrl]
      rfl
    · rw [if_neg hrl]
      rfl
  · intro hrl
    unfold applyHandler
    rw [if_neg hvf, if_pos hrl]
  · intro r hallow hget
    have hrl : ¬ ((checkRateLimit st.rate now 100 60).1.allowed = false) := by
      simp [hallow]
    constructor
    · unfold applyHandler
      rw [if_neg hvf, if_neg hrl]
      simp only [hk, hget]
    · exact checkRateLimit_allowed_mem st.rate now 100 60 hallow

def c3res : StoredResult := ⟨true, [], none, 5, some "s0"⟩

def c3op : WorkbookOperation := ⟨"insert", "A1", some "v", none⟩

def c3req : ApplyRequest := ⟨"wb1", none, [c3op], some "k1"⟩

/-- A server state whose rate window for the user is exactly full and
whose idempotency store already holds a result for `k1`. -/
def c3st : ServerState :=
  ⟨⟨List.replicate 100 5000, some 10000000⟩, [("k1", ⟨c3res, 999999999⟩)], ⟨[]⟩⟩

set_option maxRecDepth 100000 in
/-- **C3 counterexample**: a replayed submission whose stored result
exists is *not* returned without consulting the rate limiter — with the
user over quota, the handler consults the rate limiter first, denies the
request with 429 metadata, and never performs the idempotency lookup. -/
theorem applyHandler_idem_after_rate_counterexample :
    idemGet c3st.idem "k1" 6000 = some c3res ∧
    applyHandler c3st 6000 0 c3req (.ok ()) (.ok "s1") c2api =
      (.rateLimited 65000 59,
       ⟨(checkRateLimit c3st.rate 6000 100 60).2, c3st.idem, c3st.cache⟩,
       [.rateCheck]) ∧
    (.rateLimited 65000 59 : ApplyResponse) ≠ .ok c3res := by
  refine ⟨rfl, ?_, by decide⟩
  decide

def c3wst : ServerState := ⟨rlInit, [("k1", ⟨c3res, 999999999⟩)], ⟨[]⟩⟩

theorem applyHandler_rate_before_idem_witness :
    (applyHandler c3wst 6000 0 c3req (.ok ()) (.ok "s1") c2api).2.2.head? =
      some .rateCheck ∧
    applyHandler c3wst 6000 0 c3req (.ok ()) (.ok "s1") c2api =
      (.ok c3res, ⟨(checkRateLimit c3wst.rate 6000 100 60).2, c3wst.idem, c3wst.cache⟩,
       [.rateCheck, .idemLookup "k1"]) ∧
    6000 ∈ (checkRateLimit c3wst.rate 6000 100 60).2.entries := by
  have h := applyHandler_rate_before_idem c3wst 6000 0 c3req (.ok ()) (.ok "s1") c2api "k1"
    rfl (by decide)
  have h2 := h.2.2 c3res (by decide) (by decide)
  exact ⟨h.1, h2.1, h2.2⟩

theorem mapGraphError_ne_ok (e : GraphError) (r : StoredResult) :
    mapGraphError e ≠ .ok r := by
  unfold mapGraphError
  split_ifs <;> simp

/-- A run of the handler that returns a 200 result either replayed a
stored result (leaving the idempotency store untouched) or executed the
batch, in which case the result was written to the store under the
request's key (when present). -/
theorem applyHandler_ok_inversion (st : ServerState) (now dur : Nat) (req : ApplyRequest)
    (obo : Except String Unit) (co : Except GraphError String)
    (api : GraphCallEvent → Except String Unit) (r : StoredResult) (st' : ServerState)
    (tr : List Event)
    (h : applyHandler st now dur req obo co api = (.ok r, st', tr)) :
    validateRequest req = true ∧
    ((∃ k, req.idempotencyKey = some k ∧ idemGet st.idem k now = some r ∧
        st' = ⟨(checkRateLimit st.rate now 100 60).2, st.idem, st.cache⟩ ∧
        tr = [.rateCheck, .idemLookup k]) ∨
     st'.idem = (match req.idempotencyKey with
                 | some k => idemSet st.idem k r (now + 86400 * 1000)
                 | none => st.idem)) := by
  unfold applyHandler at h
  by_cases hval : validateRequest req = false
  · rw [if_pos hval] at h
    simp at h
  · refine ⟨by simpa using hval, ?_⟩
    rw [if_neg hval] at h
    by_cases hrl : (checkRateLimit st.rate now 100 60).1.allowed = false
    · rw [if_pos hrl] at h
      simp at h
    · rw [if_neg hrl] at h
      dsimp only at h
      cases hk : req.idempotencyKey with
      | some k =>
        rw [hk] at h
        dsimp only at h
        cases hhit : idemGet st.idem k now with
        | some r0 =>
          rw [hhit] at h
          dsimp only at h
          have h1 := congrArg Prod.fst h
          have h2 := congrArg (fun p => p.2.1) h
          have h3 := congrArg (fun p => p.2.2) h
          dsimp only at h1 h2 h3
          simp only [ApplyResponse.ok.injEq] at h1
          left
          exact ⟨k, rfl, by rw [← h1]; exact hhit, h2.symm, h3.symm⟩
        | none =>
          rw [hhit] at h
          dsimp only at h
          unfold applyHandlerRest at h
          cases hobo : obo with
          | error msg =>
            rw [hobo] at h
            dsimp only at h
            have h1 := congrArg Prod.fst h
            simp at h1
          | ok u =>
            rw [hobo] at h
            dsimp only at h
            cases hrun : (applyWorkbookOperations co api st.cache now req.itemId
                req.driveId req.operations).1 with
            | error e =>
              rw [hrun] at h
              dsimp only at h
              have h1 := congrArg Prod.fst h
              dsimp only at h1
              exact absurd h1 (mapGraphError_ne_ok e r)
            | ok opres =>
              rw [hrun] at h
              dsimp only at h
              have h1 := congrArg Prod.fst h
              have h2 := congrArg (fun p => p.2.1.idem) h
              dsimp only at h1 h2
              simp only [ApplyResponse.ok.injEq] at h1
              right
              dsimp only
              rw [← h2, h1]
      | none =>
        rw [hk] at h
        dsimp only at h
        unfold applyHandlerRest at h
        cases hobo : obo with
        | error msg =>
          rw [hobo] at h
          dsimp only at h
          have h1 := congrArg Prod.fst h
          simp at h1
        | ok u =>
          rw [hobo] at h
          dsimp only at h
          cases hrun : (applyWorkbookOperations co api st.cache now req.itemId
              req.driveId req.operations).1 with
          | error e =>
            rw [hrun] at h
            dsimp only at h
            have h1 := congrArg Prod.fst h
            dsimp only at h1
            exact absurd h1 (mapGraphError_ne_ok e r)
          | ok opres =>
            rw [hrun] at h
            dsimp only at h
            have h2 := congrArg (fun p => p.2.1.idem) h
            dsimp only at h2
            right
            exact h2.symm

/-- **C5 (amended)**: when a batch with idempotency key `k` completes
(successfully *or* with partial per-operation errors — `r.errors` is
unconstrained) its response is stored under `k`; a second submission of
the same request within the 24-hour retention window, *provided its
rate-limit check admits it*, returns exactly the stored response and
performs no remote call whatsoever — the second run's trace contains
only local store accesses (no OBO exchange, no session creation, no
operation application), regardless of the remote oracles supplied. -/
theorem applyHandler_idempotent_replay (st0 : ServerState) (now0 dur0 : Nat)
    (req : ApplyRequest) (obo : Except String Unit) (co : Except GraphError String)
    (api : GraphCallEvent → Except String Unit) (k : String) (r : StoredResult)
    (st1 : ServerState) (tr : List Event)
    (hk : req.idempotencyKey = some k)
    (hmiss : idemGet st0.idem k now0 = none)
    (h1 : applyHandler st0 now0 dur0 req obo co api = (.ok r, st1, tr))
    (now1 dur1 : Nat) (obo' : Except String Unit) (co' : Except GraphError String)
    (api' : GraphCallEvent → Except String Unit)
    (hfresh : now1 < now0 + 86400 * 1000)
    (hgranted : (checkRateLimit st1.rate now1 100 60).1.allowed = true) :
    idemGet st1.idem k now1 = some r ∧
    applyHandler st1 now1 dur1 req obo' co' api' =
      (.ok r, ⟨(checkRateLimit st1.rate now1 100 60).2, st1.idem, st1.cache⟩,
       [.rateCheck, .idemLookup k]) ∧
    (applyHandler st1 now1 dur1 req obo' co' api').2.2.all isLocalEvent = true := by
  obtain ⟨hval, hcase⟩ := applyHandler_ok_inversion st0 now0 dur0 req obo co api r st1 tr h1
  have hidem : idemGet st1.idem k now1 = some r := by
    rcases hcase with ⟨k', hk', hget, -, -⟩ | hstored
    · rw [hk] at hk'
      cases hk'
      rw [hmiss] at hget
      exact absurd hget (by simp)
    · rw [hk] at hstored
      dsimp only at hstored
      rw [hstored]
      simp only [idemGet, idemSet, List.lookup, beq_self_eq_true]
      rw [if_pos hfresh]
  have hvf : ¬ (validateRequest req = false) := by simp [hval]
  have hrl : ¬ ((checkRateLimit st1.rate now1 100 60).1.allowed = false) := by
    simp [hgranted]
  have heq : applyHandler st1 now1 dur1 req obo' co' api' =
      (.ok r, ⟨(checkRateLimit st1.rate now1 100 60).2, st1.idem, st1.cache⟩,
       [.rateCheck, .idemLookup k]) := by
    unfold applyHandler
    rw [if_neg hvf, if_neg hrl]
    dsimp only
    rw [hk]
    dsimp only
    rw [hidem]
  exact ⟨hidem, heq, by rw [heq]; rfl⟩

def c5op : WorkbookOperation := ⟨"insert", "A1:B2", some "grid", none⟩

def c5req : ApplyRequest := ⟨"wb1", none, [c5op], some "k5"⟩

def c5st0 : ServerState := ⟨rlInit, [], ⟨[]⟩⟩

def c5api : GraphCallEvent → Except String Unit := fun _ => .ok ()

def c5res : StoredResult := ⟨true, [c5op], none, 7, some "s9"⟩

/-- The completed first submission of `c5req`. -/
def c5run1 : ApplyResponse × ServerState × List Event :=
  applyHandler c5st0 1000 7 c5req (.ok ()) (.ok "s9") c5api

theorem applyHandler_idempotent_replay_witness :
    idemGet c5run1.2.1.idem "k5" 2000 = some c5res ∧
    applyHandler c5run1.2.1 2000 8 c5req (.error "auth down") (.error ⟨some 503, none, "down"⟩)
        (fun _ => .error "remote down") =
      (.ok c5res,
       ⟨(checkRateLimit c5run1.2.1.rate 2000 100 60).2, c5run1.2.1.idem, c5run1.2.1.cache⟩,
       [.rateCheck, .idemLookup "k5"]) ∧
    (applyHandler c5run1.2.1 2000 8 c5req (.error "auth down") (.error ⟨some 503, none, "down"⟩)
        (fun _ => .error "remote down")).2.2.all isLocalEvent = true :=
  applyHandler_idempotent_replay c5st0 1000 7 c5req (.ok ()) (.ok "s9") c5api "k5" c5res
    c5run1.2.1 c5run1.2.2 rfl rfl rfl 2000 8 (.error "auth down")
    (.error ⟨some 503, none, "down"⟩) (fun _ => .error "remote down")
    (by decide) (by decide)

def c5cop : WorkbookOperation := ⟨"insert", "A1", some "v", none⟩

def c5creq : ApplyRequest := ⟨"wb1", none, [c5cop], some "k6"⟩

/-- A state whose rate window already holds 99 admitted requests: the
first submission is admitted (and stored), the replay is denied. -/
def c5cst0 : ServerState := ⟨⟨List.replicate 99 5000, some 10000000⟩, [], ⟨[]⟩⟩

def c5cres : StoredResult := ⟨true, [c5cop], none, 0, some "s1"⟩

def c5crun1 : ApplyResponse × ServerState × List Event :=
  applyHandler c5cst0 6000 0 c5creq (.ok ()) (.ok "s1") c5api

set_option maxRecDepth 100000 in
/-- **C5 counterexample**: the first submission of `c5creq` completes and
stores its result under `k6`, yet the second submission of the very same
request is rejected by the rate limiter (the user's quota is exhausted)
and returns a 429 denial instead of the stored result — refuting the
claim for *every* twice-submitted batch. -/
theorem applyHandler_replay_counterexample :
    c5crun1.1 = .ok c5cres ∧
    idemGet c5crun1.2.1.idem "k6" 6500 = some c5cres ∧
    (applyHandler c5crun1.2.1 6500 0 c5creq (.ok ()) (.ok "s1") c5api).1 =
      .rateLimited 65000 59 ∧
    (.rateLimited 65000 59 : ApplyResponse) ≠ .ok c5cres := by
  refine ⟨by decide, by decide, by decide, by decide⟩

end GraphMCP
